import Mathlib

/-!
Verification of the mtc_game arcade driving mini-game.

Shallow embedding of the session simulation found in the repository:
  * `src/script.js`          — the 3-lane variant (threshold 3, pool of 10);
  * `src/unnamed/part_003`   — the cannon-es physics variant (maxCollisions 5,
                               invulnerability window, fixed 1/60 s steps);
  * `src/unnamed/part_006`   — the second physics variant (fixed 1/50 s steps);
  * `src/src/main.js`        — the simple physics demo (base 5, min 1, max 20).
Floating-point numbers are modelled as rationals; wall-clock frame deltas and
the values drawn from Math.random() are passed in as explicit inputs.
-/

namespace MtcGame

/-! ## Velocity constants (script.js lines 33-36, part_003 lines 32-34) -/

def baseVelocity : ℚ := 6944 / 1000

def minVelocity : ℚ := 278 / 1000

def maxVelocity : ℚ := 44444 / 1000

/-- One frame's input flags and wall-clock delta (seconds). -/
structure Tick where
  acc : Bool
  dec : Bool
  dt : ℚ

/-- Forward-speed update of one animation frame in script.js `animate`
(lines 546-557): accelerate clamps at `maxVelocity`, decelerate clamps at
`minVelocity`, otherwise the speed eases toward `baseVelocity` at rate 2,
clamped so it does not pass `baseVelocity`. -/
def velUpdateLane (acc dec : Bool) (dt v : ℚ) : ℚ :=
  if acc then min (v + 5 * dt) maxVelocity
  else if dec then max (v - 5 * dt) minVelocity
  else if baseVelocity < v then max (v - 2 * dt) baseVelocity
  else if v < baseVelocity then min (v + 2 * dt) baseVelocity
  else v

/-- Per-physics-tick forward-speed update in part_003 `updatePhysics`
(lines 756-787): the accelerate and decelerate branches add or subtract a
flat 5 (no `dt` factor in the source), the idle branch eases toward
`baseVelocity` at rate 2 with clamping. -/
def velUpdatePhys (acc dec : Bool) (dt v : ℚ) : ℚ :=
  if acc then min (v + 5) maxVelocity
  else if dec then max (v - 5) minVelocity
  else if baseVelocity < v then max (v - 2 * dt) baseVelocity
  else if v < baseVelocity then min (v + 2 * dt) baseVelocity
  else v

/-- Running the script.js speed update over a sequence of frames. -/
def runLaneVel (v0 : ℚ) (ts : List Tick) : ℚ :=
  ts.foldl (fun v t => velUpdateLane t.acc t.dec t.dt v) v0

/-- Running the part_003 speed update over a sequence of physics ticks. -/
def runPhysVel (v0 : ℚ) (ts : List Tick) : ℚ :=
  ts.foldl (fun v t => velUpdatePhys t.acc t.dec t.dt v) v0

/-! ## The src/src/main.js demo (`updateLogic`, lines 276-298) -/

def mainBaseVelocity : ℚ := 5

def mainMinVelocity : ℚ := 1

def mainMaxVelocity : ℚ := 20

/-- Forward-speed update in src/src/main.js `updateLogic` (lines 285-298).
The idle branch adds or subtracts `2 * dt` WITHOUT clamping at
`mainBaseVelocity` (the source has no Math.min / Math.max there). -/
def velUpdateMain (acc dec : Bool) (dt v : ℚ) : ℚ :=
  if acc then min (v + 10 * dt) mainMaxVelocity
  else if dec then max (v - 10 * dt) mainMinVelocity
  else if mainBaseVelocity < v then v - 2 * dt
  else if v < mainBaseVelocity then v + 2 * dt
  else v

/-! ## Collision counting and game-over threshold

script.js `handleCollision` (lines 356-365) + `triggerGameOver` (380-395);
part_003 `handleCollision` (lines 507-520) with `maxCollisions = 5` and the
invulnerability flag (lines 79-81, armed again in `resetGameState` 1047-1051).
-/

/-- Session counters of the lane variant (script.js). `warningShown` models
the warning-indicator overlay being displayed. -/
structure LaneSession where
  collisionCount : ℕ
  totalCollisions : ℕ
  gameOver : Bool
  warningShown : Bool
deriving DecidableEq, Repr

/-- script.js `handleCollision`: increment both counters, then either show the
warning (count still below 3) or invoke `triggerGameOver`.  The returned Bool
records whether `triggerGameOver` was invoked; `triggerGameOver` itself leaves
`gameOver` true whether or not it was already set. -/
def laneHandleCollision (s : LaneSession) : LaneSession × Bool :=
  if s.collisionCount + 1 < 3 then
    ({ s with
        collisionCount := s.collisionCount + 1
        totalCollisions := s.totalCollisions + 1
        warningShown := true }, false)
  else
    ({ s with
        collisionCount := s.collisionCount + 1
        totalCollisions := s.totalCollisions + 1
        gameOver := true }, true)

/-- Counter state right after script.js `resetGameState` (lines 717-750). -/
def laneResetSession : LaneSession :=
  { collisionCount := 0, totalCollisions := 0, gameOver := false, warningShown := false }

/-- The lane session after `n` collision events of a play-through. -/
def lanePlay (n : ℕ) : LaneSession :=
  (List.range n).foldl (fun s _ => (laneHandleCollision s).1) laneResetSession

/-- part_003 line 38: `let maxCollisions = 5`. -/
def maxCollisions : ℕ := 5

/-- Session counters of the part_003 physics variant, including the
invulnerability flag. -/
structure PhysSession where
  collisionCount : ℕ
  totalCollisions : ℕ
  gameOver : Bool
  invulnerable : Bool
  warningShown : Bool
deriving DecidableEq, Repr

/-- part_003 `handleCollision` (lines 507-520): a contact is ignored entirely
while `gameOver` or `invulnerable`; otherwise both counters are incremented and
`triggerGameOver` fires exactly when the new count reaches `maxCollisions`.
The returned Bool records whether `triggerGameOver` was invoked. -/
def physHandleCollision (s : PhysSession) : PhysSession × Bool :=
  if s.gameOver || s.invulnerable then (s, false)
  else if maxCollisions ≤ s.collisionCount + 1 then
    ({ s with
        collisionCount := s.collisionCount + 1
        totalCollisions := s.totalCollisions + 1
        gameOver := true }, true)
  else
    ({ s with
        collisionCount := s.collisionCount + 1
        totalCollisions := s.totalCollisions + 1
        warningShown := true }, false)

/-- The invulnerability timeout of part_003 (lines 1049-1051) firing. -/
def physWindowElapse (s : PhysSession) : PhysSession :=
  { s with invulnerable := false }

/-- Counter state right after part_003 `resetGameState` (lines 994-1052):
counters zeroed, flags cleared, invulnerability armed. -/
def physResetSession : PhysSession :=
  { collisionCount := 0, totalCollisions := 0, gameOver := false,
    invulnerable := true, warningShown := false }

/-- Events a part_003 play-through can see: a vehicle-obstacle contact, or the
3-second invulnerability window elapsing. -/
inductive PhysEvent where
  | contact : PhysEvent
  | elapse : PhysEvent
deriving DecidableEq, Repr

def physStep (s : PhysSession) : PhysEvent → PhysSession
  | PhysEvent.contact => (physHandleCollision s).1
  | PhysEvent.elapse => physWindowElapse s

/-- The part_003 session after a sequence of events of a play-through. -/
def physPlay (evs : List PhysEvent) : PhysSession :=
  evs.foldl physStep physResetSession

/-! ## Obstacle pool (script.js lines 22-25, 265-354, 739-741) -/

/-- script.js line 25: `const maxObstacles = 10`. -/
def maxObstacles : ℕ := 10

/-- One pooled obstacle slot: the `visible` flag plus the position/speed data
that `spawnObstacle` writes.  (Model type/scale are cosmetic and untouched by
the simulation.) -/
structure Slot where
  visible : Bool
  lane : ℚ
  z : ℚ
  speed : ℚ
deriving DecidableEq, Repr

/-- `getObstacleFromPool` (script.js 299-304; part_006 402-409 returns the
index): the first slot whose `visible` flag is false, if any. -/
def getObstacleFromPool : List Slot → Option ℕ
  | [] => none
  | s :: rest =>
    if s.visible then (getObstacleFromPool rest).map (fun i => i + 1) else some 0

/-- The forward-axis spawn position of script.js `spawnObstacle` line 315:
`MTC.position.z - 100 - Math.random() * 50`, with `r` the random draw. -/
def spawnZ (carZ r : ℚ) : ℚ := carZ - 100 - r * 50

/-- part_003 `spawnObstacle` line 449, behind branch:
`userZ - (50 + Math.random() * 50)`. -/
def physSpawnZBehind (userZ r : ℚ) : ℚ := userZ - (50 + r * 50)

/-- part_003 `spawnObstacle` line 453, ahead branch:
`userZ + (50 + Math.random() * 100)`. -/
def physSpawnZAhead (userZ r : ℚ) : ℚ := userZ + (50 + r * 100)

/-- The obstacle-system state of the lane variant: the pool, the `obstacles`
array (as indices into the pool), and the car's forward position. -/
structure ObsState where
  pool : List Slot
  active : List ℕ
  carZ : ℚ
deriving DecidableEq, Repr

/-- script.js `spawnObstacle` (lines 307-322): take the first free slot, make
it visible, place it `100 + r * 50` in front of the car, record its speed and
push it onto the `obstacles` array.  A saturated pool is a silent no-op. -/
def spawnObstacle (lane r speed : ℚ) (st : ObsState) : ObsState :=
  match getObstacleFromPool st.pool with
  | none => st
  | some i =>
    { st with
      pool := st.pool.set i
        { visible := true, lane := lane, z := spawnZ st.carZ r, speed := speed }
      active := st.active ++ [i] }

/-- The body of one iteration of script.js `updateObstacles` (lines 324-337):
drop stale entries, advance the slot, recycle it (hide + remove) once it has
passed `carZ + 50`. -/
def obstacleStep (dt carZ : ℚ) (acc : List Slot × List ℕ) (i : ℕ) :
    List Slot × List ℕ :=
  match acc.1[i]? with
  | none => acc
  | some s =>
    if s.visible then
      if carZ + 50 < s.z - s.speed * dt then
        (acc.1.set i { s with z := s.z - s.speed * dt, visible := false }, acc.2)
      else
        (acc.1.set i { s with z := s.z - s.speed * dt }, i :: acc.2)
    else acc

/-- script.js `updateObstacles` iterates the `obstacles` array backwards with
`splice`; folding over the reversed index list and re-prepending kept indices
reproduces that order exactly. -/
def updateObstacles (dt : ℚ) (st : ObsState) : ObsState :=
  let p := st.active.reverse.foldl (obstacleStep dt st.carZ) (st.pool, [])
  { st with pool := p.1, active := p.2 }

/-- The body of one iteration of script.js `checkCollisions` (lines 340-354).
`hit i` abstracts the expanded bounding-box intersection test between the car
and slot `i`; on a hit the slot is hidden and removed, an invisible entry is
skipped with `continue` (kept). -/
def collisionStep (hit : ℕ → Bool) (acc : List Slot × List ℕ) (i : ℕ) :
    List Slot × List ℕ :=
  match acc.1[i]? with
  | none => (acc.1, i :: acc.2)
  | some s =>
    if s.visible then
      if hit i then (acc.1.set i { s with visible := false }, acc.2)
      else (acc.1, i :: acc.2)
    else (acc.1, i :: acc.2)

/-- script.js `checkCollisions` (lines 340-354), backwards iteration as in
`updateObstacles`.  The `handleCollision` side effect on the session counters
is modelled separately by `laneHandleCollision`. -/
def checkCollisions (hit : ℕ → Bool) (st : ObsState) : ObsState :=
  let p := st.active.reverse.foldl (collisionStep hit) (st.pool, [])
  { st with pool := p.1, active := p.2 }

/-- `obstacles.forEach(obs => obs.visible = false)`: hide every slot listed in
the `obstacles` array. -/
def hideAll : List ℕ → List Slot → List Slot
  | [], pool => pool
  | i :: rest, pool =>
    hideAll rest
      (match pool[i]? with
       | none => pool
       | some s => pool.set i { s with visible := false })

/-- The obstacle clearing done by script.js `handleGameCompletion`
(lines 412-413) and `resetGameState` (lines 739-741): hide all listed slots,
then empty the `obstacles` array. -/
def clearObstacles (st : ObsState) : ObsState :=
  { st with pool := hideAll st.active st.pool, active := [] }

/-- Number of active (visible) slots in the pool. -/
def countActive (pool : List Slot) : ℕ := pool.countP (fun s => s.visible)

/-- The invariant of the `obstacles` array: its entries are pairwise-distinct
pool indices, each naming a slot whose `visible` flag is set. -/
def ActiveOk (st : ObsState) : Prop :=
  st.active.Nodup ∧ ∀ i ∈ st.active, ∃ s, st.pool[i]? = some s ∧ s.visible = true

/-! ## Fixed-step drain loop (part_003 `animate`, lines 730-748) -/

/-- part_003 line 73: `const PHYSICS_STEP = 1 / 60`. -/
def PHYSICS_STEP : ℚ := 1 / 60

/-- The number of `updatePhysics` calls made by the drain loop of part_003
`animate` (lines 735-739): `while (physicsDeltaTime >= PHYSICS_STEP)
{ updatePhysics(PHYSICS_STEP); physicsDeltaTime -= PHYSICS_STEP; }`.
The loop has no cap on the number of iterations. -/
def drainTicks (p : ℚ) : ℕ :=
  if h : PHYSICS_STEP ≤ p then drainTicks (p - PHYSICS_STEP) + 1 else 0
termination_by (⌈p * 60⌉).toNat
decreasing_by
  have h1 : (1 : ℤ) ≤ ⌈p * 60⌉ := by
    rw [Int.one_le_ceil_iff]
    have : (1 : ℚ) / 60 ≤ p := h
    linarith
  have h2 : ⌈(p - PHYSICS_STEP) * 60⌉ = ⌈p * 60⌉ - 1 := by
    have he : (p - PHYSICS_STEP) * 60 = p * 60 - 1 := by
      norm_num [PHYSICS_STEP]; ring
    rw [he, Int.ceil_sub_one]
  rw [h2]
  omega

/-! ## Race completion (script.js `animate` 520-592, `resetGameState` 717-750) -/

/-- script.js line 53: `const completionDistance = 2000`. -/
def completionDistance : ℚ := 2000

/-- The per-frame racing state of script.js: forward speed, accumulated
distance and elapsed time. -/
structure RaceState where
  velocity : ℚ
  distance : ℚ
  elapsed : ℚ
deriving DecidableEq, Repr

/-- One animation frame of script.js `animate`: `elapsedTime` advances by the
frame delta, `distance += velocity * dt` uses the pre-update velocity (the
speed update at lines 546-557 runs after the distance update at line 534). -/
def frameStep (st : RaceState) (t : Tick) : RaceState :=
  { velocity := velUpdateLane t.acc t.dec t.dt st.velocity
    distance := st.distance + st.velocity * t.dt
    elapsed := st.elapsed + t.dt }

/-- Racing state right after script.js `resetGameState`: `velocity =
baseVelocity`, `distance = 0`, and `startTime = previousTime = now` so the
elapsed time restarts at 0. -/
def raceResetState : RaceState :=
  { velocity := baseVelocity, distance := 0, elapsed := 0 }

/-- A play-through: folding the animation frames from the reset state. -/
def runRace (ts : List Tick) : RaceState :=
  ts.foldl frameStep raceResetState

/-! ## Leaderboard (script.js `updateLeaderboard`, lines 448-484) -/

/-- One persisted leaderboard record. -/
structure LBEntry where
  name : String
  time : ℚ
  collisions : ℕ
  score : ℕ
deriving DecidableEq, Repr

/-- The scan loop of `updateLeaderboard` (lines 450-455): the first index `i`
with `newTime < leaderboard[i].time`, if any. -/
def findPosition (t : ℚ) : List LBEntry → Option ℕ
  | [] => none
  | e :: rest =>
    if t < e.time then some 0 else (findPosition t rest).map (fun i => i + 1)

/-- `leaderboard.splice(position, 0, entry)`. -/
def insertAt (e : LBEntry) : ℕ → List LBEntry → List LBEntry
  | 0, l => e :: l
  | _ + 1, [] => [e]
  | n + 1, x :: l => x :: insertAt e n l

/-- The insert performed by script.js `updateLeaderboard` (lines 448-475):
insert at the first index whose time exceeds the new time, or append when the
list has fewer than 10 entries and no such index exists (otherwise do
nothing); then `pop` the last record when the length exceeds 10. -/
def updateLeaderboard (e : LBEntry) (lb : List LBEntry) : List LBEntry :=
  match findPosition e.time lb with
  | some i =>
    if 10 < (insertAt e i lb).length then (insertAt e i lb).dropLast
    else insertAt e i lb
  | none =>
    if lb.length < 10 then
      if 10 < (insertAt e lb.length lb).length then (insertAt e lb.length lb).dropLast
      else insertAt e lb.length lb
    else lb

/-- The stored list is sorted ascending by `time`. -/
def SortedByTime (lb : List LBEntry) : Prop :=
  lb.Pairwise (fun a b => a.time ≤ b.time)

/-- The state invariant of the part_003 play-through: the game-over flag is
set exactly when the collision count has reached `maxCollisions`. -/
def PhysInv (s : PhysSession) : Prop :=
  s.gameOver = true ↔ maxCollisions ≤ s.collisionCount

/-- The per-play-through invariant of the script.js racing loop: the speed is
in range, time is nonnegative, and the accumulated distance never exceeds
`maxVelocity` times the elapsed time. -/
def RaceInv (st : RaceState) : Prop :=
  minVelocity ≤ st.velocity ∧ st.velocity ≤ maxVelocity ∧ 0 ≤ st.elapsed
  ∧ st.distance ≤ maxVelocity * st.elapsed

/-- A saturated ten-slot pool, used as a concrete witness state. -/
def fullPoolState : ObsState :=
  { pool := List.replicate 10 { visible := true, lane := 0, z := 0, speed := 0 }
    active := []
    carZ := 0 }

/-- A small concrete obstacle state, used as a witness. -/
def exampleObsState : ObsState :=
  { pool := [{ visible := true, lane := 0, z := -120, speed := 20 },
             { visible := false, lane := 2, z := 0, speed := 0 }]
    active := [0]
    carZ := 0 }

/-- A small sorted leaderboard, used as a witness. -/
def lbExample : List LBEntry :=
  [{ name := "A", time := 10, collisions := 0, score := 100 },
   { name := "B", time := 20, collisions := 1, score := 90 }]

/-- A new record landing between the two entries of `lbExample`. -/
def lbNew : LBEntry := { name := "C", time := 15, collisions := 2, score := 80 }

/-! # Theorems -/

/-! ## Velocity bounds -/

lemma minVelocity_le_baseVelocity : minVelocity ≤ baseVelocity := by
  norm_num [minVelocity, baseVelocity]

lemma baseVelocity_le_maxVelocity : baseVelocity ≤ maxVelocity := by
  norm_num [baseVelocity, maxVelocity]

lemma minVelocity_le_maxVelocity : minVelocity ≤ maxVelocity := by
  norm_num [minVelocity, maxVelocity]

lemma velUpdateLane_mem (acc dec : Bool) (dt v : ℚ) (hdt : 0 ≤ dt)
    (h1 : minVelocity ≤ v) (h2 : v ≤ maxVelocity) :
    minVelocity ≤ velUpdateLane acc dec dt v ∧ velUpdateLane acc dec dt v ≤ maxVelocity := by
  unfold velUpdateLane
  split
  · constructor
    · exact le_min (le_trans h1 (by linarith)) minVelocity_le_maxVelocity
    · exact min_le_right _ _
  split
  · constructor
    · exact le_max_right _ _
    · exact max_le (by linarith) minVelocity_le_maxVelocity
  split
  · constructor
    · exact le_trans minVelocity_le_baseVelocity (le_max_right _ _)
    · exact max_le (by linarith) baseVelocity_le_maxVelocity
  split
  · constructor
    · exact le_min (le_trans h1 (by linarith)) minVelocity_le_baseVelocity
    · exact le_trans (min_le_right _ _) baseVelocity_le_maxVelocity
  · exact ⟨h1, h2⟩

lemma velUpdatePhys_mem (acc dec : Bool) (dt v : ℚ) (hdt : 0 ≤ dt)
    (h1 : minVelocity ≤ v) (h2 : v ≤ maxVelocity) :
    minVelocity ≤ velUpdatePhys acc dec dt v ∧ velUpdatePhys acc dec dt v ≤ maxVelocity := by
  unfold velUpdatePhys
  split
  · constructor
    · exact le_min (by linarith) minVelocity_le_maxVelocity
    · exact min_le_right _ _
  split
  · constructor
    · exact le_max_right _ _
    · exact max_le (by linarith) minVelocity_le_maxVelocity
  split
  · constructor
    · exact le_trans minVelocity_le_baseVelocity (le_max_right _ _)
    · exact max_le (by linarith) baseVelocity_le_maxVelocity
  split
  · constructor
    · exact le_min (le_trans h1 (by linarith)) minVelocity_le_baseVelocity
    · exact le_trans (min_le_right _ _) baseVelocity_le_maxVelocity
  · exact ⟨h1, h2⟩

lemma runLaneVel_mem (ts : List Tick) (v0 : ℚ) (hdt : ∀ t ∈ ts, 0 ≤ t.dt)
    (h1 : minVelocity ≤ v0) (h2 : v0 ≤ maxVelocity) :
    minVelocity ≤ runLaneVel v0 ts ∧ runLaneVel v0 ts ≤ maxVelocity := by
  induction ts generalizing v0 with
  | nil => exact ⟨h1, h2⟩
  | cons t rest ih =>
    have ht : 0 ≤ t.dt := hdt t (List.mem_cons_self t rest)
    have h := velUpdateLane_mem t.acc t.dec t.dt v0 ht h1 h2
    exact ih (velUpdateLane t.acc t.dec t.dt v0)
      (fun u hu => hdt u (List.mem_cons_of_mem t hu)) h.1 h.2

lemma runPhysVel_mem (ts : List Tick) (v0 : ℚ) (hdt : ∀ t ∈ ts, 0 ≤ t.dt)
    (h1 : minVelocity ≤ v0) (h2 : v0 ≤ maxVelocity) :
    minVelocity ≤ runPhysVel v0 ts ∧ runPhysVel v0 ts ≤ maxVelocity := by
  induction ts generalizing v0 with
  | nil => exact ⟨h1, h2⟩
  | cons t rest ih =>
    have ht : 0 ≤ t.dt := hdt t (List.mem_cons_self t rest)
    have h := velUpdatePhys_mem t.acc t.dec t.dt v0 ht h1 h2
    exact ih (velUpdatePhys t.acc t.dec t.dt v0)
      (fun u hu => hdt u (List.mem_cons_of_mem t hu)) h.1 h.2

/-- Claim C2: starting from any forward velocity in
`[minVelocity, maxVelocity]` (in particular the initial `baseVelocity`),
every sequence of per-tick forward-speed updates — whichever of the
accelerate, decelerate or idle branch fires each tick, with nonnegative frame
deltas — keeps the velocity in `[minVelocity, maxVelocity]`, in both the
script.js and the part_003 update rules. -/
theorem velocity_bound (ts : List Tick) (v0 : ℚ) (hdt : ∀ t ∈ ts, 0 ≤ t.dt)
    (h1 : minVelocity ≤ v0) (h2 : v0 ≤ maxVelocity) :
    (minVelocity ≤ runLaneVel v0 ts ∧ runLaneVel v0 ts ≤ maxVelocity)
    ∧ (minVelocity ≤ runPhysVel v0 ts ∧ runPhysVel v0 ts ≤ maxVelocity)
    ∧ (minVelocity ≤ baseVelocity ∧ baseVelocity ≤ maxVelocity) :=
  ⟨runLaneVel_mem ts v0 hdt h1 h2, runPhysVel_mem ts v0 hdt h1 h2,
   minVelocity_le_baseVelocity, baseVelocity_le_maxVelocity⟩

/-- Witness for C2 at a concrete five-tick play-through from `baseVelocity`. -/
theorem velocity_bound_witness :
    (minVelocity ≤ runLaneVel baseVelocity
        [⟨true, false, 1⟩, ⟨true, false, 1⟩, ⟨false, true, 2⟩, ⟨false, false, 3⟩, ⟨true, false, 10⟩]
      ∧ runLaneVel baseVelocity
        [⟨true, false, 1⟩, ⟨true, false, 1⟩, ⟨false, true, 2⟩, ⟨false, false, 3⟩, ⟨true, false, 10⟩]
        ≤ maxVelocity)
    ∧ (minVelocity ≤ runPhysVel baseVelocity
        [⟨true, false, 1⟩, ⟨true, false, 1⟩, ⟨false, true, 2⟩, ⟨false, false, 3⟩, ⟨true, false, 10⟩]
      ∧ runPhysVel baseVelocity
        [⟨true, false, 1⟩, ⟨true, false, 1⟩, ⟨false, true, 2⟩, ⟨false, false, 3⟩, ⟨true, false, 10⟩]
        ≤ maxVelocity)
    ∧ (minVelocity ≤ baseVelocity ∧ baseVelocity ≤ maxVelocity) :=
  velocity_bound
    [⟨true, false, 1⟩, ⟨true, false, 1⟩, ⟨false, true, 2⟩, ⟨false, false, 3⟩, ⟨true, false, 10⟩]
    baseVelocity (by decide) (by norm_num [minVelocity, baseVelocity])
    (by norm_num [baseVelocity, maxVelocity])

/-- Claim C7 is false as stated: in src/src/main.js `updateLogic`, with
neither input held, a velocity of 6 (above `mainBaseVelocity = 5`) and a
frame delta of 1 s, the idle branch subtracts `2 * dt` without clamping and
yields 4, overshooting below the base velocity. -/
theorem idle_overshoot_main :
    mainBaseVelocity < 6
    ∧ velUpdateMain false false 1 6 = 4
    ∧ velUpdateMain false false 1 6 < mainBaseVelocity := by
  norm_num [velUpdateMain, mainBaseVelocity]

/-- Claim C7 (amended): the idle easing never overshoots `baseVelocity` in
the script.js variant (whose idle branch clamps with Math.max / Math.min);
in src/src/main.js `updateLogic` the idle branch moves by exactly `2 * dt`
with no clamp, so it is not overshoot-protected. -/
theorem idle_no_overshoot (dt v : ℚ) :
    ((baseVelocity < v → baseVelocity ≤ velUpdateLane false false dt v)
      ∧ (v < baseVelocity → velUpdateLane false false dt v ≤ baseVelocity)
      ∧ (v = baseVelocity → velUpdateLane false false dt v = v))
    ∧ ((mainBaseVelocity < v → velUpdateMain false false dt v = v - 2 * dt)
      ∧ (v < mainBaseVelocity → velUpdateMain false false dt v = v + 2 * dt)) := by
  refine ⟨⟨?_, ?_, ?_⟩, ?_, ?_⟩
  · intro h
    simp only [velUpdateLane, Bool.false_eq_true, if_false, if_pos h]
    exact le_max_right _ _
  · intro h
    simp only [velUpdateLane, Bool.false_eq_true, if_false,
      if_neg (not_lt.mpr h.le), if_pos h]
    exact min_le_right _ _
  · intro h
    subst h
    simp [velUpdateLane]
  · intro h
    simp [velUpdateMain, h]
  · intro h
    simp [velUpdateMain, h, not_lt.mpr h.le]

/-- Witness for the amended C7 at concrete velocities and a 1 s delta. -/
theorem idle_no_overshoot_witness :
    baseVelocity ≤ velUpdateLane false false 1 10
    ∧ velUpdateLane false false 1 3 ≤ baseVelocity
    ∧ velUpdateLane false false 1 baseVelocity = baseVelocity
    ∧ velUpdateMain false false 1 7 = 7 - 2 * 1
    ∧ velUpdateMain false false 1 3 = 3 + 2 * 1 :=
  ⟨(idle_no_overshoot 1 10).1.1 (by norm_num [baseVelocity]),
   (idle_no_overshoot 1 3).1.2.1 (by norm_num [baseVelocity]),
   (idle_no_overshoot 1 baseVelocity).1.2.2 rfl,
   (idle_no_overshoot 1 7).2.1 (by norm_num [mainBaseVelocity]),
   (idle_no_overshoot 1 3).2.2 (by norm_num [mainBaseVelocity])⟩

/-! ## Collision threshold -/

lemma laneHandleCollision_count (s : LaneSession) :
    (laneHandleCollision s).1.collisionCount = s.collisionCount + 1 := by
  unfold laneHandleCollision
  split <;> rfl

lemma laneHandleCollision_invoked (s : LaneSession) :
    (laneHandleCollision s).2 = true ↔ 3 ≤ s.collisionCount + 1 := by
  unfold laneHandleCollision
  split <;> rename_i h <;> simp <;> omega

lemma laneHandleCollision_gameOver (s : LaneSession) :
    (laneHandleCollision s).1.gameOver = true
      ↔ (s.gameOver = true ∨ 3 ≤ s.collisionCount + 1) := by
  unfold laneHandleCollision
  split <;> rename_i h <;> simp <;> omega

lemma lanePlay_succ (n : ℕ) :
    lanePlay (n + 1) = (laneHandleCollision (lanePlay n)).1 := by
  unfold lanePlay
  rw [List.range_succ, List.foldl_append, List.foldl_cons, List.foldl_nil]

lemma lanePlay_count (n : ℕ) : (lanePlay n).collisionCount = n := by
  induction n with
  | zero => rfl
  | succ k ih => rw [lanePlay_succ, laneHandleCollision_count, ih]

lemma lanePlay_gameOver (n : ℕ) : (lanePlay n).gameOver = true ↔ 3 ≤ n := by
  induction n with
  | zero => simp [lanePlay, laneResetSession]
  | succ k ih =>
    rw [lanePlay_succ, laneHandleCollision_gameOver, lanePlay_count, ih]
    omega

lemma physHandleCollision_mono (s : PhysSession) :
    s.collisionCount ≤ (physHandleCollision s).1.collisionCount := by
  unfold physHandleCollision
  split
  · exact le_refl _
  · split <;> simp

lemma physHandleCollision_vulnerable (s : PhysSession)
    (hg : s.gameOver = false) (hi : s.invulnerable = false) :
    (physHandleCollision s).1.collisionCount = s.collisionCount + 1
    ∧ ((physHandleCollision s).2 = true ↔ maxCollisions ≤ s.collisionCount + 1) := by
  unfold physHandleCollision
  rw [hg, hi]
  simp only [Bool.or_self, Bool.false_eq_true, if_false]
  split <;> rename_i h <;> simp <;> omega

lemma physStep_inv (s : PhysSession) (ev : PhysEvent) (h : PhysInv s) :
    PhysInv (physStep s ev) := by
  cases ev with
  | elapse => exact h
  | contact =>
    show PhysInv (physHandleCollision s).1
    unfold physHandleCollision
    split
    · exact h
    · rename_i hgi
      have hg : s.gameOver = false := by
        cases hval : s.gameOver with
        | false => rfl
        | true => simp [hval] at hgi
      have hcount : ¬ maxCollisions ≤ s.collisionCount := fun hc => by
        rw [h.mpr hc] at hg
        exact Bool.true_eq_false.mp hg
      split <;> rename_i hc <;> unfold PhysInv <;> simp [hc, hg]

lemma physPlay_inv (evs : List PhysEvent) : PhysInv (physPlay evs) := by
  have base : PhysInv physResetSession := by
    unfold PhysInv physResetSession maxCollisions
    simp
  unfold physPlay
  induction evs using List.reverseRecOn with
  | nil => exact base
  | append_singleton l ev ih =>
    rw [List.foldl_append, List.foldl_cons, List.foldl_nil]
    exact physStep_inv _ ev ih

/-- Claim C1: `collisionCount` is non-decreasing and the session enters
game over exactly at the collision threshold.  In the lane variant
(script.js) every collision event increments the count by exactly one and
`triggerGameOver` is invoked precisely when the incremented count reaches 3,
and a play-through of `n` collisions is in game over iff `n ≥ 3`.  In the
part_003 physics variant the count never decreases, a counted (vulnerable,
pre-game-over) contact increments it by exactly one with `triggerGameOver`
invoked precisely when the incremented count reaches `maxCollisions = 5`,
and along any play-through the game-over flag holds iff the count has
reached `maxCollisions`. -/
theorem collision_threshold :
    (∀ s : LaneSession,
      (laneHandleCollision s).1.collisionCount = s.collisionCount + 1
      ∧ ((laneHandleCollision s).2 = true ↔ 3 ≤ s.collisionCount + 1))
    ∧ (∀ n : ℕ, (lanePlay n).collisionCount = n ∧ ((lanePlay n).gameOver = true ↔ 3 ≤ n))
    ∧ (∀ s : PhysSession,
      s.collisionCount ≤ (physHandleCollision s).1.collisionCount
      ∧ (s.gameOver = false → s.invulnerable = false →
          (physHandleCollision s).1.collisionCount = s.collisionCount + 1
          ∧ ((physHandleCollision s).2 = true ↔ maxCollisions ≤ s.collisionCount + 1)))
    ∧ (∀ evs : List PhysEvent,
        (physPlay evs).gameOver = true ↔ maxCollisions ≤ (physPlay evs).collisionCount) :=
  ⟨fun s => ⟨laneHandleCollision_count s, laneHandleCollision_invoked s⟩,
   fun n => ⟨lanePlay_count n, lanePlay_gameOver n⟩,
   fun s => ⟨physHandleCollision_mono s, fun hg hi => physHandleCollision_vulnerable s hg hi⟩,
   fun evs => physPlay_inv evs⟩

/-- Witness for C1: the fifth counted contact of the part_003 variant. -/
theorem collision_threshold_witness :
    (physHandleCollision ⟨4, 7, false, false, true⟩).1.collisionCount = 4 + 1
    ∧ ((physHandleCollision ⟨4, 7, false, false, true⟩).2 = true ↔ maxCollisions ≤ 4 + 1) :=
  (collision_threshold.2.2.1 ⟨4, 7, false, false, true⟩).2 rfl rfl

/-! ## Invulnerability window -/

/-- Claim C8: while the invulnerability flag is true a contact is ignored
entirely (counters, game-over and warning state all unchanged); once the
window has elapsed (`invulnerable = false`) and the game is not over, the
same contact is counted.  `resetGameState` arms the window and the timeout
clears it. -/
theorem invulnerability_short_circuit :
    (∀ s : PhysSession, s.invulnerable = true → physHandleCollision s = (s, false))
    ∧ (∀ s : PhysSession, s.gameOver = false → s.invulnerable = false →
        (physHandleCollision s).1.collisionCount = s.collisionCount + 1
        ∧ (physHandleCollision s).1.totalCollisions = s.totalCollisions + 1)
    ∧ physResetSession.invulnerable = true
    ∧ (∀ s : PhysSession, (physWindowElapse s).invulnerable = false) := by
  refine ⟨?_, ?_, rfl, fun s => rfl⟩
  · intro s h
    unfold physHandleCollision
    rw [h]
    simp
  · intro s hg hi
    unfold physHandleCollision
    rw [hg, hi]
    simp only [Bool.or_self, Bool.false_eq_true, if_false]
    split <;> exact ⟨rfl, rfl⟩

/-- Witness for C8: the same contact, once during the window and once after
it has elapsed. -/
theorem invulnerability_short_circuit_witness :
    physHandleCollision ⟨2, 2, false, true, false⟩ = (⟨2, 2, false, true, false⟩, false)
    ∧ (physHandleCollision ⟨2, 2, false, false, false⟩).1.collisionCount = 2 + 1
    ∧ (physHandleCollision ⟨2, 2, false, false, false⟩).1.totalCollisions = 2 + 1 :=
  ⟨invulnerability_short_circuit.1 ⟨2, 2, false, true, false⟩ rfl,
   invulnerability_short_circuit.2.1 ⟨2, 2, false, false, false⟩ rfl rfl⟩

/-! ## Spawn-distance floor -/

/-- Claim C6: every spawn places the obstacle at forward-axis distance at
least `D_MIN` from the vehicle: at least 100 in script.js, and at least 50 in
both the behind and the ahead branch of part_003. -/
theorem spawn_distance_floor (carZ r : ℚ) (h0 : 0 ≤ r) (h1 : r < 1) :
    100 ≤ |spawnZ carZ r - carZ|
    ∧ 50 ≤ |physSpawnZBehind carZ r - carZ|
    ∧ 50 ≤ |physSpawnZAhead carZ r - carZ| := by
  have hr50 : 0 ≤ r * 50 := by positivity
  have hr100 : 0 ≤ r * 100 := by positivity
  refine ⟨?_, ?_, ?_⟩
  · have e : spawnZ carZ r - carZ = -(100 + r * 50) := by unfold spawnZ; ring
    rw [e, abs_neg, abs_of_nonneg (by linarith)]
    linarith
  · have e : physSpawnZBehind carZ r - carZ = -(50 + r * 50) := by
      unfold physSpawnZBehind; ring
    rw [e, abs_neg, abs_of_nonneg (by linarith)]
    linarith
  · have e : physSpawnZAhead carZ r - carZ = 50 + r * 100 := by
      unfold physSpawnZAhead; ring
    rw [e, abs_of_nonneg (by linarith)]
    linarith

/-- Witness for C6 at a concrete car position and random draw. -/
theorem spawn_distance_floor_witness :
    100 ≤ |spawnZ 0 (1 / 2) - 0|
    ∧ 50 ≤ |physSpawnZBehind 0 (1 / 2) - 0|
    ∧ 50 ≤ |physSpawnZAhead 0 (1 / 2) - 0| :=
  spawn_distance_floor 0 (1 / 2) (by norm_num) (by norm_num)

/-! ## The uncapped fixed-step drain loop -/

lemma drainTicks_of_lt (p : ℚ) (h : p < PHYSICS_STEP) : drainTicks p = 0 := by
  rw [drainTicks, dif_neg (not_le.mpr h)]

lemma drainTicks_of_le (p : ℚ) (h : PHYSICS_STEP ≤ p) :
    drainTicks p = drainTicks (p - PHYSICS_STEP) + 1 := by
  rw [drainTicks, dif_pos h]

lemma drainTicks_count (n : ℕ) : ∀ p : ℚ,
    (n : ℚ) * PHYSICS_STEP ≤ p → p < ((n : ℚ) + 1) * PHYSICS_STEP → drainTicks p = n := by
  have hstep : (0 : ℚ) < PHYSICS_STEP := by norm_num [PHYSICS_STEP]
  induction n with
  | zero =>
    intro p h0 h1
    apply drainTicks_of_lt
    push_cast at h1
    linarith
  | succ k ih =>
    intro p h0 h1
    push_cast at h0 h1
    have hs : PHYSICS_STEP ≤ p := by nlinarith [Nat.cast_nonneg (α := ℚ) k]
    rw [drainTicks_of_le p hs, ih (p - PHYSICS_STEP) (by linarith) (by linarith)]

/-- Claim C5 is violated by the code: the drain loop of part_003 `animate`
(lines 735-739) runs `while (physicsDeltaTime >= PHYSICS_STEP)` with no cap
on the iterations and no discarding — a 10-second frame delta (e.g. a tab
resume) executes 600 fixed physics ticks inside a single callback, not at
most 5. -/
theorem tick_drain_uncapped : drainTicks 10 = 600 ∧ 5 < drainTicks 10 := by
  have h := drainTicks_count 600 10 (by norm_num [PHYSICS_STEP]) (by norm_num [PHYSICS_STEP])
  exact ⟨h, by rw [h]; norm_num⟩

/-! ## Pool capacity and saturation no-op -/

lemma getObstacleFromPool_none_of_full (pool : List Slot)
    (h : ∀ s ∈ pool, s.visible = true) : getObstacleFromPool pool = none := by
  induction pool with
  | nil => rfl
  | cons s rest ih =>
    unfold getObstacleFromPool
    rw [if_pos (h s (List.mem_cons_self s rest)),
      ih (fun u hu => h u (List.mem_cons_of_mem s hu))]
    rfl

/-- Claim C3: the number of active (visible) slots never exceeds the pool
capacity, and a `spawnObstacle` call made while every slot is active is a
silent no-op: the whole state is unchanged and the active count stays equal
to the capacity. -/
theorem pool_capacity_saturated :
    (∀ st : ObsState, st.pool.length = maxObstacles → countActive st.pool ≤ maxObstacles)
    ∧ (∀ (st : ObsState) (lane r speed : ℚ), (∀ s ∈ st.pool, s.visible = true) →
        spawnObstacle lane r speed st = st
        ∧ countActive (spawnObstacle lane r speed st).pool = st.pool.length) := by
  constructor
  · intro st hcap
    rw [← hcap]
    exact List.countP_le_length _
  · intro st lane r speed hfull
    have hnone := getObstacleFromPool_none_of_full st.pool hfull
    have hspawn : spawnObstacle lane r speed st = st := by
      unfold spawnObstacle
      rw [hnone]
    refine ⟨hspawn, ?_⟩
    rw [hspawn]
    exact List.countP_eq_length.mpr (fun s hs => by simp [hfull s hs])

/-- Witness for C3: a saturated ten-slot pool. -/
theorem pool_capacity_saturated_witness :
    countActive fullPoolState.pool ≤ maxObstacles
    ∧ spawnObstacle 2 (1 / 2) 25 fullPoolState = fullPoolState
    ∧ countActive (spawnObstacle 2 (1 / 2) 25 fullPoolState).pool = fullPoolState.pool.length :=
  ⟨pool_capacity_saturated.1 fullPoolState (by decide),
   pool_capacity_saturated.2 fullPoolState 2 (1 / 2) 25 (by decide)⟩

/-! ## Completion time is positive -/

lemma frameStep_inv (st : RaceState) (t : Tick) (hdt : 0 ≤ t.dt) (h : RaceInv st) :
    RaceInv (frameStep st t) := by
  obtain ⟨h1, h2, h3, h4⟩ := h
  have hv := velUpdateLane_mem t.acc t.dec t.dt st.velocity hdt h1 h2
  have hvd : st.velocity * t.dt ≤ maxVelocity * t.dt :=
    mul_le_mul_of_nonneg_right h2 hdt
  refine ⟨hv.1, hv.2, ?_, ?_⟩
  · show 0 ≤ st.elapsed + t.dt
    linarith
  · show st.distance + st.velocity * t.dt ≤ maxVelocity * (st.elapsed + t.dt)
    nlinarith

lemma runRace_foldl_inv (ts : List Tick) (st : RaceState) (hdt : ∀ t ∈ ts, 0 ≤ t.dt)
    (h : RaceInv st) : RaceInv (ts.foldl frameStep st) := by
  induction ts generalizing st with
  | nil => exact h
  | cons t rest ih =>
    exact ih (frameStep st t) (fun u hu => hdt u (List.mem_cons_of_mem t hu))
      (frameStep_inv st t (hdt t (List.mem_cons_self t rest)) h)

lemma raceResetState_inv : RaceInv raceResetState :=
  ⟨minVelocity_le_baseVelocity, baseVelocity_le_maxVelocity, le_refl 0, by
    show (0 : ℚ) ≤ maxVelocity * 0
    simp⟩

/-- Claim C9: along any play-through started by `resetGameState`, the
accumulated distance never exceeds `maxVelocity` times the elapsed time;
hence whenever game completion fires (`distance ≥ completionDistance`), the
elapsed time is at least `completionDistance / maxVelocity` and strictly
positive, so the average-speed computation never divides by zero. -/
theorem completion_elapsed_positive (ts : List Tick) (hdt : ∀ t ∈ ts, 0 ≤ t.dt)
    (hdist : completionDistance ≤ (runRace ts).distance) :
    (runRace ts).distance ≤ maxVelocity * (runRace ts).elapsed
    ∧ completionDistance / maxVelocity ≤ (runRace ts).elapsed
    ∧ 0 < (runRace ts).elapsed := by
  have h : RaceInv (runRace ts) := runRace_foldl_inv ts raceResetState hdt raceResetState_inv
  obtain ⟨-, -, h3, h4⟩ := h
  have hmax : (0 : ℚ) < maxVelocity := by norm_num [maxVelocity]
  have hcd : (0 : ℚ) < completionDistance := by norm_num [completionDistance]
  have he : completionDistance ≤ maxVelocity * (runRace ts).elapsed := le_trans hdist h4
  refine ⟨h4, ?_, ?_⟩
  · rw [div_le_iff₀ hmax, mul_comm]
    exact he
  · nlinarith

/-- Witness for C9: a single 300-second frame at `baseVelocity` covers
2083.2 m ≥ 2000 m. -/
theorem completion_elapsed_positive_witness :
    (runRace [⟨false, false, 300⟩]).distance
      ≤ maxVelocity * (runRace [⟨false, false, 300⟩]).elapsed
    ∧ completionDistance / maxVelocity ≤ (runRace [⟨false, false, 300⟩]).elapsed
    ∧ 0 < (runRace [⟨false, false, 300⟩]).elapsed :=
  completion_elapsed_positive [⟨false, false, 300⟩]
    (by intro t ht; rw [List.mem_singleton] at ht; subst ht; norm_num)
    (by norm_num [runRace, frameStep, raceResetState, completionDistance, baseVelocity])

/-! ## Leaderboard invariant -/

lemma mem_insertAt (e x : LBEntry) : ∀ (n : ℕ) (l : List LBEntry),
    x ∈ insertAt e n l ↔ x = e ∨ x ∈ l := by
  intro n
  induction n with
  | zero => intro l; simp [insertAt]
  | succ k ih =>
    intro l
    cases l with
    | nil => simp [insertAt]
    | cons y ys =>
      unfold insertAt
      rw [List.mem_cons, ih ys, List.mem_cons]
      tauto

lemma length_insertAt (e : LBEntry) : ∀ (n : ℕ) (l : List LBEntry),
    (insertAt e n l).length = l.length + 1 := by
  intro n
  induction n with
  | zero => intro l; rfl
  | succ k ih =>
    intro l
    cases l with
    | nil => rfl
    | cons y ys =>
      unfold insertAt
      rw [List.length_cons, List.length_cons, ih ys]

lemma findPosition_none (t : ℚ) : ∀ l : List LBEntry,
    findPosition t l = none → ∀ x ∈ l, x.time ≤ t := by
  intro l
  induction l with
  | nil => intro _ x hx; exact absurd hx (List.not_mem_nil x)
  | cons e rest ih =>
    intro h x hx
    unfold findPosition at h
    by_cases hc : t < e.time
    · rw [if_pos hc] at h
      exact absurd h (by simp)
    · rw [if_neg hc] at h
      rcases List.mem_cons.mp hx with rfl | hx2
      · exact not_lt.mp hc
      · exact ih (Option.map_eq_none'.mp h) x hx2

lemma sorted_insertAt_some (e : LBEntry) : ∀ (l : List LBEntry) (i : ℕ),
    SortedByTime l → findPosition e.time l = some i →
    SortedByTime (insertAt e i l) := by
  intro l
  induction l with
  | nil => intro i _ hf; exact absurd hf (by simp [findPosition])
  | cons x rest ih =>
    intro i hs hf
    have hx := List.pairwise_cons.mp hs
    unfold findPosition at hf
    by_cases hc : e.time < x.time
    · rw [if_pos hc] at hf
      obtain rfl : (0 : ℕ) = i := Option.some_inj.mp hf
      show List.Pairwise _ (e :: x :: rest)
      refine List.pairwise_cons.mpr ⟨?_, hs⟩
      intro b hb
      rcases List.mem_cons.mp hb with rfl | hb2
      · exact le_of_lt hc
      · exact le_trans (le_of_lt hc) (hx.1 b hb2)
    · rw [if_neg hc] at hf
      obtain ⟨j, hj, rfl⟩ := Option.map_eq_some'.mp hf
      show List.Pairwise _ (x :: insertAt e j rest)
      refine List.pairwise_cons.mpr ⟨?_, ih j hx.2 hj⟩
      intro b hb
      rcases (mem_insertAt e b j rest).mp hb with rfl | hb2
      · exact not_lt.mp hc
      · exact hx.1 b hb2

lemma sorted_insertAt_append (e : LBEntry) : ∀ l : List LBEntry,
    SortedByTime l → (∀ x ∈ l, x.time ≤ e.time) →
    SortedByTime (insertAt e l.length l) := by
  intro l
  induction l with
  | nil =>
    intro _ _
    show List.Pairwise _ [e]
    exact List.pairwise_singleton _ e
  | cons x rest ih =>
    intro hs hle
    have hx := List.pairwise_cons.mp hs
    show List.Pairwise _ (x :: insertAt e rest.length rest)
    refine List.pairwise_cons.mpr
      ⟨?_, ih hx.2 (fun y hy => hle y (List.mem_cons_of_mem x hy))⟩
    intro b hb
    rcases (mem_insertAt e b rest.length rest).mp hb with rfl | hb2
    · exact hle x (List.mem_cons_self x rest)
    · exact hx.1 b hb2

lemma sortedByTime_dropLast (l : List LBEntry) (h : SortedByTime l) :
    SortedByTime l.dropLast :=
  List.Pairwise.sublist (List.dropLast_sublist l) h

/-- Claim C4: starting from a stored list that is sorted ascending by time
and holds at most 10 entries, the insert performed by `updateLeaderboard`
(insert at the first index whose time exceeds the new time, append when the
list is short and no such index exists, then pop past 10) leaves the list
sorted ascending by time with at most 10 entries; when the list was short the
new entry is present afterwards. -/
theorem leaderboard_invariant (e : LBEntry) (lb : List LBEntry)
    (hs : SortedByTime lb) (hlen : lb.length ≤ 10) :
    SortedByTime (updateLeaderboard e lb)
    ∧ (updateLeaderboard e lb).length ≤ 10
    ∧ (lb.length < 10 → e ∈ updateLeaderboard e lb) := by
  unfold updateLeaderboard
  split
  · rename_i i hf
    have hsort := sorted_insertAt_some e lb i hs hf
    have hlen1 := length_insertAt e i lb
    split
    · rename_i hgt
      rw [hlen1] at hgt
      refine ⟨sortedByTime_dropLast _ hsort, ?_, ?_⟩
      · rw [List.length_dropLast, hlen1]
        omega
      · intro hlb
        exfalso
        omega
    · rename_i hgt
      rw [hlen1] at hgt
      exact ⟨hsort, by rw [hlen1]; omega,
        fun _ => (mem_insertAt e e i lb).mpr (Or.inl rfl)⟩
  · rename_i hf
    split
    · rename_i hlt
      have hall := findPosition_none e.time lb hf
      have hsort := sorted_insertAt_append e lb hs hall
      have hlen1 := length_insertAt e lb.length lb
      split
      · rename_i hgt
        rw [hlen1] at hgt
        exact absurd hgt (by omega)
      · exact ⟨hsort, by rw [hlen1]; omega,
          fun _ => (mem_insertAt e e lb.length lb).mpr (Or.inl rfl)⟩
    · rename_i hlt
      exact ⟨hs, hlen, fun h => absurd h hlt⟩

/-- Witness for C4: inserting a 15-second run between 10 s and 20 s. -/
theorem leaderboard_invariant_witness :
    SortedByTime (updateLeaderboard lbNew lbExample)
    ∧ (updateLeaderboard lbNew lbExample).length ≤ 10
    ∧ (lbExample.length < 10 → lbNew ∈ updateLeaderboard lbNew lbExample) :=
  leaderboard_invariant lbNew lbExample
    (by unfold SortedByTime lbExample; norm_num [List.pairwise_cons])
    (by norm_num [lbExample])

/-! ## The active-obstacle array invariant -/

lemma getObstacleFromPool_spec : ∀ (pool : List Slot) (i : ℕ),
    getObstacleFromPool pool = some i →
    ∃ s, pool[i]? = some s ∧ s.visible = false := by
  intro pool
  induction pool with
  | nil => intro i h; exact absurd h (by simp [getObstacleFromPool])
  | cons s rest ih =>
    intro i h
    unfold getObstacleFromPool at h
    by_cases hv : s.visible
    · rw [if_pos hv] at h
      obtain ⟨j, hj, rfl⟩ := Option.map_eq_some'.mp h
      obtain ⟨u, hu, hvu⟩ := ih j hj
      exact ⟨u, by rw [List.getElem?_cons_succ]; exact hu, hvu⟩
    · rw [if_neg hv] at h
      obtain rfl : (0 : ℕ) = i := Option.some_inj.mp h
      exact ⟨s, List.getElem?_cons_zero, Bool.not_eq_true s.visible ▸ hv⟩

lemma spawnObstacle_activeOk (lane r speed : ℚ) (st : ObsState) (h : ActiveOk st) :
    ActiveOk (spawnObstacle lane r speed st) := by
  obtain ⟨hnd, hvis⟩ := h
  unfold spawnObstacle
  cases hg : getObstacleFromPool st.pool with
  | none => exact ⟨hnd, hvis⟩
  | some i =>
    obtain ⟨s, hs, hsv⟩ := getObstacleFromPool_spec st.pool i hg
    obtain ⟨hilen, -⟩ := List.getElem?_eq_some.mp hs
    have hi_not_mem : i ∉ st.active := by
      intro hmem
      obtain ⟨u, hu, huv⟩ := hvis i hmem
      rw [hs] at hu
      rw [Option.some_inj.mp hu] at hsv
      rw [huv] at hsv
      exact absurd hsv (by simp)
    constructor
    · rw [List.nodup_append]
      exact ⟨hnd, List.nodup_singleton i,
        fun a ha hai => hi_not_mem (by rwa [← List.mem_singleton.mp hai])⟩
    · intro j hj
      rcases List.mem_append.mp hj with hj1 | hj2
      · obtain ⟨u, hu, huv⟩ := hvis j hj1
        have hne : i ≠ j := fun heq => hi_not_mem (by rwa [heq])
        exact ⟨u, by rw [List.getElem?_set_ne hne]; exact hu, huv⟩
      · obtain rfl : j = i := List.mem_singleton.mp hj2
        exact ⟨{ visible := true, lane := lane, z := spawnZ st.carZ r, speed := speed },
          List.getElem?_set_self hilen, rfl⟩

lemma obstacleFold_inv (dt carZ : ℚ) :
    ∀ (l : List ℕ) (pool : List Slot) (kept : List ℕ),
      l.Nodup →
      (∀ i ∈ l, ∃ s, pool[i]? = some s ∧ s.visible = true) →
      kept.Nodup →
      (∀ j ∈ kept, j ∉ l) →
      (∀ j ∈ kept, ∃ s, pool[j]? = some s ∧ s.visible = true) →
      (l.foldl (obstacleStep dt carZ) (pool, kept)).2.Nodup
      ∧ ∀ j ∈ (l.foldl (obstacleStep dt carZ) (pool, kept)).2,
          ∃ s, (l.foldl (obstacleStep dt carZ) (pool, kept)).1[j]? = some s
            ∧ s.visible = true := by
  intro l
  induction l with
  | nil =>
    intro pool kept _ _ hk _ hkv
    exact ⟨hk, hkv⟩
  | cons i rest ih =>
    intro pool kept hnd hl hk hkl hkv
    obtain ⟨s, hs, hv⟩ := hl i (List.mem_cons_self i rest)
    obtain ⟨hilen, -⟩ := List.getElem?_eq_some.mp hs
    have hnd1 := List.nodup_cons.mp hnd
    rw [List.foldl_cons]
    have hstep : obstacleStep dt carZ (pool, kept) i =
        if carZ + 50 < s.z - s.speed * dt then
          (pool.set i { s with z := s.z - s.speed * dt, visible := false }, kept)
        else
          (pool.set i { s with z := s.z - s.speed * dt }, i :: kept) := by
      unfold obstacleStep
      dsimp only
      rw [hs]
      simp [hv]
    by_cases hz : carZ + 50 < s.z - s.speed * dt
    · rw [hstep, if_pos hz]
      apply ih
      · exact hnd1.2
      · intro i2 hi2
        obtain ⟨u, hu, huv⟩ := hl i2 (List.mem_cons_of_mem i hi2)
        have hne : i ≠ i2 := fun heq => hnd1.1 (by rwa [heq])
        exact ⟨u, by rw [List.getElem?_set_ne hne]; exact hu, huv⟩
      · exact hk
      · exact fun j hj hjr => hkl j hj (List.mem_cons_of_mem i hjr)
      · intro j hj
        obtain ⟨u, hu, huv⟩ := hkv j hj
        have hne : i ≠ j := fun heq => hkl j hj (by rw [← heq]; exact List.mem_cons_self i rest)
        exact ⟨u, by rw [List.getElem?_set_ne hne]; exact hu, huv⟩
    · rw [hstep, if_neg hz]
      apply ih
      · exact hnd1.2
      · intro i2 hi2
        obtain ⟨u, hu, huv⟩ := hl i2 (List.mem_cons_of_mem i hi2)
        have hne : i ≠ i2 := fun heq => hnd1.1 (by rwa [heq])
        exact ⟨u, by rw [List.getElem?_set_ne hne]; exact hu, huv⟩
      · exact List.nodup_cons.mpr
          ⟨fun hik => hkl i hik (List.mem_cons_self i rest), hk⟩
      · intro j hj
        rcases List.mem_cons.mp hj with rfl | hj2
        · exact hnd1.1
        · exact fun hjr => hkl j hj2 (List.mem_cons_of_mem i hjr)
      · intro j hj
        rcases List.mem_cons.mp hj with rfl | hj2
        · exact ⟨{ s with z := s.z - s.speed * dt },
            List.getElem?_set_self hilen, hv⟩
        · obtain ⟨u, hu, huv⟩ := hkv j hj2
          have hne : i ≠ j := fun heq => hkl j hj2 (by rw [← heq]; exact List.mem_cons_self i rest)
          exact ⟨u, by rw [List.getElem?_set_ne hne]; exact hu, huv⟩

lemma collisionFold_inv (hit : ℕ → Bool) :
    ∀ (l : List ℕ) (pool : List Slot) (kept : List ℕ),
      l.Nodup →
      (∀ i ∈ l, ∃ s, pool[i]? = some s ∧ s.visible = true) →
      kept.Nodup →
      (∀ j ∈ kept, j ∉ l) →
      (∀ j ∈ kept, ∃ s, pool[j]? = some s ∧ s.visible = true) →
      (l.foldl (collisionStep hit) (pool, kept)).2.Nodup
      ∧ ∀ j ∈ (l.foldl (collisionStep hit) (pool, kept)).2,
          ∃ s, (l.foldl (collisionStep hit) (pool, kept)).1[j]? = some s
            ∧ s.visible = true := by
  intro l
  induction l with
  | nil =>
    intro pool kept _ _ hk _ hkv
    exact ⟨hk, hkv⟩
  | cons i rest ih =>
    intro pool kept hnd hl hk hkl hkv
    obtain ⟨s, hs, hv⟩ := hl i (List.mem_cons_self i rest)
    have hnd1 := List.nodup_cons.mp hnd
    rw [List.foldl_cons]
    have hstep : collisionStep hit (pool, kept) i =
        if hit i then (pool.set i { s with visible := false }, kept)
        else (pool, i :: kept) := by
      unfold collisionStep
      dsimp only
      rw [hs]
      simp [hv]
    by_cases hh : hit i
    · rw [hstep, if_pos hh]
      apply ih
      · exact hnd1.2
      · intro i2 hi2
        obtain ⟨u, hu, huv⟩ := hl i2 (List.mem_cons_of_mem i hi2)
        have hne : i ≠ i2 := fun heq => hnd1.1 (by rwa [heq])
        exact ⟨u, by rw [List.getElem?_set_ne hne]; exact hu, huv⟩
      · exact hk
      · exact fun j hj hjr => hkl j hj (List.mem_cons_of_mem i hjr)
      · intro j hj
        obtain ⟨u, hu, huv⟩ := hkv j hj
        have hne : i ≠ j := fun heq => hkl j hj (by rw [← heq]; exact List.mem_cons_self i rest)
        exact ⟨u, by rw [List.getElem?_set_ne hne]; exact hu, huv⟩
    · rw [hstep, if_neg hh]
      apply ih
      · exact hnd1.2
      · exact fun i2 hi2 => hl i2 (List.mem_cons_of_mem i hi2)
      · exact List.nodup_cons.mpr
          ⟨fun hik => hkl i hik (List.mem_cons_self i rest), hk⟩
      · intro j hj
        rcases List.mem_cons.mp hj with rfl | hj2
        · exact hnd1.1
        · exact fun hjr => hkl j hj2 (List.mem_cons_of_mem i hjr)
      · intro j hj
        rcases List.mem_cons.mp hj with rfl | hj2
        · exact ⟨s, hs, hv⟩
        · exact hkv j hj2

lemma updateObstacles_activeOk (dt : ℚ) (st : ObsState) (h : ActiveOk st) :
    ActiveOk (updateObstacles dt st) := by
  obtain ⟨hnd, hvis⟩ := h
  have hres := obstacleFold_inv dt st.carZ st.active.reverse st.pool []
    (List.nodup_reverse.mpr hnd)
    (fun i hi => hvis i (List.mem_reverse.mp hi))
    List.nodup_nil
    (fun j hj => absurd hj (List.not_mem_nil j))
    (fun j hj => absurd hj (List.not_mem_nil j))
  exact ⟨hres.1, hres.2⟩

lemma checkCollisions_activeOk (hit : ℕ → Bool) (st : ObsState) (h : ActiveOk st) :
    ActiveOk (checkCollisions hit st) := by
  obtain ⟨hnd, hvis⟩ := h
  have hres := collisionFold_inv hit st.active.reverse st.pool []
    (List.nodup_reverse.mpr hnd)
    (fun i hi => hvis i (List.mem_reverse.mp hi))
    List.nodup_nil
    (fun j hj => absurd hj (List.not_mem_nil j))
    (fun j hj => absurd hj (List.not_mem_nil j))
  exact ⟨hres.1, hres.2⟩

lemma clearObstacles_activeOk (st : ObsState) : ActiveOk (clearObstacles st) :=
  ⟨List.nodup_nil, fun j hj => absurd hj (List.not_mem_nil j)⟩

/-- Claim C10: every operation preserves the invariant that the `obstacles`
array holds pairwise-distinct pool slots, each with its visible flag set:
`spawnObstacle` only appends a slot that was invisible (hence not already
listed) after making it visible, `updateObstacles` removes (and hides) every
slot it recycles past the removal threshold, `checkCollisions` hides and
removes every hit slot, and the completion/reset clearing hides all listed
slots while emptying the array. -/
theorem active_obstacles_invariant (st : ObsState) (h : ActiveOk st)
    (lane r speed dt : ℚ) (hit : ℕ → Bool) :
    ActiveOk (spawnObstacle lane r speed st)
    ∧ ActiveOk (updateObstacles dt st)
    ∧ ActiveOk (checkCollisions hit st)
    ∧ ActiveOk (clearObstacles st) :=
  ⟨spawnObstacle_activeOk lane r speed st h,
   updateObstacles_activeOk dt st h,
   checkCollisions_activeOk hit st h,
   clearObstacles_activeOk st⟩

/-- Witness for C10 on a concrete two-slot state with one active obstacle. -/
theorem active_obstacles_invariant_witness :
    ActiveOk (spawnObstacle 2 (1 / 2) 25 exampleObsState)
    ∧ ActiveOk (updateObstacles (1 / 60) exampleObsState)
    ∧ ActiveOk (checkCollisions (fun i => i == 0) exampleObsState)
    ∧ ActiveOk (clearObstacles exampleObsState) :=
  active_obstacles_invariant exampleObsState
    ⟨by decide, by
      intro i hi
      obtain rfl : i = 0 := by
        have : i ∈ [0] := hi
        simpa using this
      exact ⟨{ visible := true, lane := 0, z := -120, speed := 20 }, rfl, rfl⟩⟩
    2 (1 / 2) 25 (1 / 60) (fun i => i == 0)

end MtcGame
